import Mathlib

/-!
Shallow embedding of the openpilot Waze hazard-alert engine:
`selfdrive/wazed/wazed.py` (feed fetch, SQLite hazard store, proximity
check) and `selfdrive/controls/lib/alerts_manager.py` (the alert
registry state machine).  Machine floats are modelled as rationals,
wall/monotonic clock readings become explicit arguments, SQLite errors
and Python `KeyError` become `Except`, and the network call is an
injected function from a bounding box to a fetch result.
-/

namespace Wazed

/-- One row of the `alerts` SQLite table, as built in
`WazeAlertManager.fetch_alerts` from a feed record
(`uuid, type, subtype, latitude, longitude, pub_millis, road_name, city`). -/
structure HazardRecord where
  uuid : String
  type : String
  subtype : String
  latitude : ℚ
  longitude : ℚ
  pub_millis : ℤ
  road_name : String
  city : String
  deriving DecidableEq

/-- The `alerts` table of `waze_alerts.db` as visible through the
process's single connection `self.db`: a list of rows in insertion
order.  The schema declares `uuid TEXT PRIMARY KEY`. -/
abbrev Store : Type := List HazardRecord

/-- Whether the table already holds a row with this uuid (what the
`PRIMARY KEY` constraint checks on an `INSERT`). -/
def hasUuid (st : Store) (u : String) : Bool :=
  st.any (fun r => r.uuid == u)

/-- One `INSERT INTO alerts ... VALUES (...)` (wazed.py lines 119-131).
It is a plain `INSERT` (not `INSERT OR REPLACE`), so a duplicate uuid
violates the primary-key constraint and raises `IntegrityError`,
modelled as `Except.error`. -/
def insertAlert (st : Store) (r : HazardRecord) : Except Unit Store :=
  if hasUuid st r.uuid then .error () else .ok (st ++ [r])

/-- The `for alert in alerts:` insertion loop of `fetch_alerts`
(lines 118-132).  The whole loop sits inside one `try/except Exception`
block, so the first failing `INSERT` aborts the loop; rows executed
before the failure remain visible on the connection (the store as seen
by `check_alerts`, which reads through the same connection). -/
def storeBatch (st : Store) : List HazardRecord → Store
  | [] => st
  | r :: rs =>
    match insertAlert st r with
    | .ok st' => storeBatch st' rs
    | .error _ => st

/-- The bounding box sent to the feed endpoint
(`top/bottom/left/right`, wazed.py lines 80-85). -/
structure Bounds where
  top : ℚ
  bottom : ℚ
  left : ℚ
  right : ℚ
  deriving DecidableEq

/-- `km_per_degree = 111.32` (wazed.py line 76). -/
def km_per_degree : ℚ := 11132 / 100

/-- `lat_delta = self.area_size / km_per_degree` (wazed.py line 77). -/
def lat_delta (area_size : ℚ) : ℚ := area_size / km_per_degree

/-- `lon_delta = self.area_size / (km_per_degree * cos(radians(lat)))`
(wazed.py line 78).  The transcendental `cos(radians(lat))` is passed
in as the rational `cos_lat`. -/
def lon_delta (area_size cos_lat : ℚ) : ℚ := area_size / (km_per_degree * cos_lat)

/-- The `bounds` dict of `fetch_alerts` (wazed.py lines 80-85). -/
def fetchBounds (lat lon area_size cos_lat : ℚ) : Bounds :=
  { top := lat + lat_delta area_size
    bottom := lat - lat_delta area_size
    left := lon - lon_delta area_size cos_lat
    right := lon + lon_delta area_size cos_lat }

/-- `WazeAlertManager.fetch_alerts` (wazed.py lines 67-141) acting on
the store.  `feed` is the injected upstream call: given the bounding
box it returns either the parsed `alerts` list or an error covering
both `requests.get` failures (network, timeout) and `response.json()`
parse failures.  The Python guard `if not self.current_lat or not
self.current_lon` is numeric truthiness: it fires exactly when either
coordinate equals 0. -/
def fetch_alerts (lat lon area_size cos_lat : ℚ)
    (feed : Bounds → Except Unit (List HazardRecord)) (st : Store) : Store :=
  if lat = 0 ∨ lon = 0 then st
  else
    match feed (fetchBounds lat lon area_size cos_lat) with
    | .error _ => st
    | .ok alerts => storeBatch st alerts

/-- `WazeAlertManager.check_alerts` (wazed.py lines 156-204), with the
transcendental haversine distance injected as `dist` (taking the two
lat/lon pairs) and the clock reading `now_ms` explicit.  Returns the
`nearby_alerts` result together with the new `self.active_alerts`
state; UI message publication is omitted.  The no-fix guard returns
`set()` without touching the store or `self.active_alerts`. -/
def check_alerts (dist : ℚ → ℚ → ℚ → ℚ → ℚ) (lat lon : ℚ) (now_ms : ℤ)
    (alert_radius : ℚ) (st : Store) (active_alerts : List String) :
    List String × List String :=
  if lat = 0 ∨ lon = 0 then ([], active_alerts)
  else
    let recent := st.filter (fun r => decide (r.pub_millis > now_ms - 10800000))
    let nearby := (recent.filter
      (fun r => decide (dist lat lon r.latitude r.longitude ≤ alert_radius))).map
      (fun r => r.uuid)
    (nearby, nearby)

end Wazed

namespace AlertsMgr

/-- One entry of the merged alert-configuration JSON
(`alerts_offroad.json` updated with `alerts_waze.json`), with exactly
the fields the manager reads: `text` (string or list of strings, read
in `update`), and the optional `duration`, `size`, `severity`,
`blinkingRate` read through `dict.get` with defaults at the use sites
(`None` models an absent JSON key). -/
structure AlertConfig where
  text : List String
  duration : Option ℚ
  size : Option ℤ
  severity : Option ℤ
  blinkingRate : Option ℚ
  deriving DecidableEq

/-- The mutable state of `AlertsManager` (alerts_manager.py lines
24-28): the loaded catalog `self.alerts` and the four per-key maps.
Python dicts become `String → Option _`; the set `self.active_alerts`
becomes a duplicate-free list whose order stands for the set's
iteration order (what `list(self.active_alerts)` observes). -/
structure AMState where
  alerts : String → Option AlertConfig
  active_alerts : List String
  alert_start_times : String → Option ℚ
  alert_rate_limits : String → Option ℚ
  alert_last_displayed : String → Option ℚ

/-- The state right after `__init__` with catalog `cat`: all maps
empty, no active alert. -/
def initState (cat : String → Option AlertConfig) : AMState :=
  { alerts := cat
    active_alerts := []
    alert_start_times := fun _ => none
    alert_rate_limits := fun _ => none
    alert_last_displayed := fun _ => none }

/-- `self.alert_rate_limits.get(alert_name, 5.0)` (line 45). -/
def rateLimitOf (s : AMState) (k : String) : ℚ :=
  (s.alert_rate_limits k).getD 5

/-- The `if enabled:` tail of `add` (lines 48-51): mark active and
stamp both `started_at` and `last_displayed_at` with `current_time`. -/
def addApply (s : AMState) (k : String) (now : ℚ) (enabled : Bool) : AMState :=
  if enabled then
    { s with
      active_alerts := k :: s.active_alerts
      alert_start_times := fun k' => if k' = k then some now else s.alert_start_times k'
      alert_last_displayed := fun k' => if k' = k then some now else s.alert_last_displayed k' }
  else s

/-- `AlertsManager.add` (lines 30-51).  `time.monotonic()` is the
explicit argument `now`.  The `isinstance(alert_name, str)` guard is
vacuous here since keys are strings.  Guards in source order: unknown
key, already active, rate limit (only when a `last_displayed` entry
exists), then the `enabled` write. -/
def add (s : AMState) (k : String) (now : ℚ) (enabled : Bool) : AMState :=
  match s.alerts k with
  | none => s
  | some _ =>
    if k ∈ s.active_alerts then s
    else
      match s.alert_last_displayed k with
      | some last =>
        if now - last < rateLimitOf s k then s
        else addApply s k now enabled
      | none => addApply s k now enabled

/-- `AlertsManager.remove` (lines 53-57): drop the key from the active
set and delete its start time; `alert_last_displayed` is untouched.
(The Python `if k in start_times: del` guard merely avoids `KeyError`;
unconditionally mapping the key to `none` is the same map.) -/
def remove (s : AMState) (k : String) : AMState :=
  if k ∈ s.active_alerts then
    { s with
      active_alerts := s.active_alerts.erase k
      alert_start_times := fun k' => if k' = k then none else s.alert_start_times k' }
  else s

/-- `AlertsManager.clear_current_alert` (lines 59-61). -/
def clear_current_alert (s : AMState) : AMState :=
  { s with active_alerts := [], alert_start_times := fun _ => none }

/-- The expiry test for one active key (lines 72-73):
`start_time = self.alert_start_times.get(alert_name, 0)` and
`cur_time - start_time > self.alerts[alert_name].get("duration", inf)`.
`self.alerts[alert_name]` is an unguarded dict index, so a key missing
from the catalog raises `KeyError` (`Except.error`); an absent
`duration` is `float("inf")`, which no finite difference exceeds. -/
def alertExpired (s : AMState) (now : ℚ) (k : String) : Except Unit Bool :=
  match s.alerts k with
  | none => .error ()
  | some cfg =>
    let start := (s.alert_start_times k).getD 0
    match cfg.duration with
    | none => .ok false
    | some d => .ok (decide (now - start > d))

/-- The `alerts_to_remove` accumulation loop of `process_alerts`
(lines 70-74), over a snapshot of the active set. -/
def collectExpired (s : AMState) (now : ℚ) : List String → Except Unit (List String)
  | [] => .ok []
  | k :: ks =>
    match alertExpired s now k with
    | .error e => .error e
    | .ok b =>
      match collectExpired s now ks with
      | .error e => .error e
      | .ok rest => .ok (if b then k :: rest else rest)

/-- `AlertsManager.process_alerts` (lines 63-77): optional clear, then
remove every active key whose age exceeds its duration. -/
def process_alerts (s : AMState) (now : ℚ) (clear : Bool) : Except Unit AMState :=
  let s := if clear then clear_current_alert s else s
  match collectExpired s now s.active_alerts with
  | .error e => .error e
  | .ok toRemove => .ok (toRemove.foldl remove s)

/-- The selection step of `AlertsManager.update` (lines 106-108):
`current_alert = list(self.active_alerts)[0]` followed by the
unguarded `alert_config = self.alerts[current_alert]`.  Returns `none`
when no alert is active; a catalog miss raises `KeyError`. -/
def selectAlert (s : AMState) : Except Unit (Option (String × AlertConfig)) :=
  match s.active_alerts with
  | [] => .ok none
  | k :: _ =>
    match s.alerts k with
    | none => .error ()
    | some cfg => .ok (some (k, cfg))

/-- Modelled from the spec: the selection policy of §4.5/§9 — the
maximum of the active set under severity order (absent severity reads
as the catalog default 0), with the lexicographically smallest key as
the stable id-based tie-break.  This is the spec side of the C1
refinement comparison, not the code. -/
def selectSpecced (s : AMState) : Option String :=
  let sev := fun k => ((s.alerts k).bind (fun c => c.severity)).getD 0
  let better := fun k k' => sev k > sev k' ∨ (sev k = sev k' ∧ k < k')
  s.active_alerts.foldr
    (fun k best =>
      match best with
      | none => some k
      | some b => if better k b then some k else some b)
    none

end AlertsMgr

namespace AlertsMgr

/-- A concrete catalog entry for `wazePolice` (severity 1). -/
def cfgPolice : AlertConfig :=
  { text := ["Police reported ahead"], duration := some 10, size := some 1
    severity := some 1, blinkingRate := none }

/-- A concrete catalog entry for `wazeHazard` (severity 0). -/
def cfgHazard : AlertConfig :=
  { text := ["Hazard reported ahead"], duration := some 10, size := some 1
    severity := some 0, blinkingRate := none }

/-- A concrete two-key catalog. -/
def cat0 : String → Option AlertConfig := fun k =>
  if k = "wazePolice" then some cfgPolice
  else if k = "wazeHazard" then some cfgHazard
  else none

/-- A reachable state in which both catalog keys are active, with the
set's iteration order putting the lower-severity `wazeHazard` first. -/
def sBoth : AMState :=
  { alerts := cat0
    active_alerts := ["wazeHazard", "wazePolice"]
    alert_start_times := fun k =>
      if k = "wazeHazard" ∨ k = "wazePolice" then some 0 else none
    alert_rate_limits := fun _ => none
    alert_last_displayed := fun k =>
      if k = "wazeHazard" ∨ k = "wazePolice" then some 0 else none }

/-- C1: the selection step takes `list(self.active_alerts)[0]` — the
first element of the set's iteration order — without consulting
severity.  With `wazeHazard` (severity 0) and `wazePolice`
(severity 1) both active and the iteration order listing `wazeHazard`
first, the code publishes `wazeHazard`, while the severity-maximum
policy with id tie-break (`selectSpecced`) picks `wazePolice`: the
selected key is not the severity maximum. -/
theorem select_ignores_severity_eval :
    selectAlert sBoth = Except.ok (some ("wazeHazard", cfgHazard)) ∧
    selectSpecced sBoth = some "wazePolice" ∧
    ("wazeHazard" : String) ≠ "wazePolice" := by
  refine ⟨rfl, by decide, by decide⟩

end AlertsMgr

namespace Wazed

/-- A concrete feed record: police report at (37, -122). -/
def recPolice : HazardRecord :=
  { uuid := "u1", type := "POLICE", subtype := "", latitude := 37
    longitude := -122, pub_millis := 1000, road_name := "Main St", city := "SF" }

/-- A later feed record carrying the same uuid with different fields. -/
def recPoliceLater : HazardRecord :=
  { uuid := "u1", type := "HAZARD", subtype := "HAZARD_ON_ROAD", latitude := 37
    longitude := -122, pub_millis := 2000, road_name := "Main St", city := "SF" }

/-- A fresh record with a distinct uuid. -/
def recOther : HazardRecord :=
  { uuid := "u2", type := "ACCIDENT", subtype := "", latitude := 37
    longitude := -122, pub_millis := 2000, road_name := "Oak St", city := "SF" }

/-- C2: storing the same hazard id twice does NOT overwrite.  The
insert loop issues a plain `INSERT` against `uuid TEXT PRIMARY KEY`,
so the second write of uuid "u1" raises `IntegrityError` and the
stored row keeps the FIRST write's fields (`type = "POLICE"`), not the
latest (`type = "HAZARD"`): the documented upsert (latest-write-wins)
semantics is not what the code does. -/
theorem upsert_keeps_first_write_eval :
    storeBatch (storeBatch [] [recPolice]) [recPoliceLater] = [recPolice] ∧
    recPolice.uuid = recPoliceLater.uuid ∧
    recPolice.type ≠ recPoliceLater.type := by
  refine ⟨rfl, rfl, ?_⟩
  decide

/-- C3: the bounding box of `fetch_alerts` has half-width
`area_size_km` in km, not `area_size_km / 2`.  At center (37, -122)
with `area_size = 10` (the shipped "10x10 km area") and
`cos_lat` instantiated to 1, the box's latitude half-width is
`10 / 111.32` degrees (10 km), while the claimed half-width is
`(10 / 2) / 111.32` degrees (5 km) — and likewise for longitude. -/
theorem bbox_half_width_eval :
    (fetchBounds 37 (-122) 10 1).top - 37 = 10 / km_per_degree ∧
    (fetchBounds 37 (-122) 10 1).right - (-122) = 10 / km_per_degree ∧
    10 / km_per_degree ≠ (10 / 2) / km_per_degree := by
  refine ⟨?_, ?_, ?_⟩
  · show 37 + lat_delta 10 - 37 = 10 / km_per_degree
    rw [lat_delta]; ring
  · show -122 + lon_delta 10 1 - (-122) = 10 / km_per_degree
    rw [lon_delta, mul_one]; ring
  · rw [km_per_degree]; norm_num

/-- C4 counterexample: with "u1" already stored, a batch holding the
conflicting "u1" record followed by the fresh "u2" record leaves the
store unchanged — the non-offending "u2" record is dropped too,
because the `try/except` wraps the whole insert loop. -/
theorem batch_abort_cex :
    storeBatch [recPolice] [recPoliceLater, recOther] = [recPolice] ∧
    hasUuid (storeBatch [recPolice] [recPoliceLater, recOther]) "u2" = false := by
  exact ⟨rfl, rfl⟩

/-- C4 amended: a constraint failure on one record of the batch drops
that record AND every remaining record of the batch; the store keeps
exactly the contents it had when the failing insert ran. -/
theorem insert_failure_drops_rest (st : Store) (r : HazardRecord)
    (rs : List HazardRecord) (h : hasUuid st r.uuid = true) :
    storeBatch st (r :: rs) = st := by
  simp [storeBatch, insertAlert, h]

/-- C4 amended, at a concrete input. -/
theorem insert_failure_drops_rest_wit :
    storeBatch [recPolice] [recPoliceLater, recOther] = [recPolice] :=
  insert_failure_drops_rest [recPolice] recPoliceLater [recOther] rfl

/-- C5: when the upstream feed call fails (network timeout or parse
failure, i.e. the injected feed returns `Except.error` at the computed
bounding box), `fetch_alerts` leaves the store exactly as it was: no
record is added, changed, or removed. -/
theorem fetch_error_leaves_store (lat lon area_size cos_lat : ℚ)
    (feed : Bounds → Except Unit (List HazardRecord)) (st : Store)
    (h : feed (fetchBounds lat lon area_size cos_lat) = Except.error ()) :
    fetch_alerts lat lon area_size cos_lat feed st = st := by
  unfold fetch_alerts
  split
  · rfl
  · rw [h]

/-- C5 at a concrete input: an always-failing feed at (37, -122). -/
theorem fetch_error_leaves_store_wit :
    fetch_alerts 37 (-122) 10 1 (fun _ => Except.error ()) [recPolice] = [recPolice] :=
  fetch_error_leaves_store 37 (-122) 10 1 _ [recPolice] rfl

/-- C9: a position whose latitude or longitude equals exactly 0 (the
Python truthiness guard `not lat or not lon`) is treated as the no-fix
state by both paths: `fetch_alerts` returns the store unchanged
whatever the feed would answer, and `check_alerts` returns the empty
set while leaving the previous active set unchanged, whatever the
store holds. -/
theorem zero_coord_no_fix (dist : ℚ → ℚ → ℚ → ℚ → ℚ) (lat lon : ℚ)
    (area_size cos_lat alert_radius : ℚ) (now_ms : ℤ)
    (feed : Bounds → Except Unit (List HazardRecord)) (st : Store)
    (active : List String) (h : lat = 0 ∨ lon = 0) :
    fetch_alerts lat lon area_size cos_lat feed st = st ∧
    check_alerts dist lat lon now_ms alert_radius st active = ([], active) := by
  constructor
  · unfold fetch_alerts
    rw [if_pos h]
  · unfold check_alerts
    rw [if_pos h]

/-- C9 at a concrete input: a genuine equator fix (latitude 0) with a
feed that would return a record and a store holding one. -/
theorem zero_coord_no_fix_wit :
    fetch_alerts 0 (-122) 10 1 (fun _ => Except.ok [recOther]) [recPolice] = [recPolice] ∧
    check_alerts (fun _ _ _ _ => 0) 0 (-122) 2000 10 [recPolice] ["u9"] = ([], ["u9"]) :=
  zero_coord_no_fix (fun _ _ _ _ => 0) 0 (-122) 10 1 10 2000
    (fun _ => Except.ok [recOther]) [recPolice] ["u9"] (Or.inl rfl)

end Wazed

namespace AlertsMgr

/-- Unfolding of `add` on the success path: the key is in the catalog,
not already active, and the rate-limit guard does not fire. -/
lemma add_eq_addApply (s : AMState) (k : String) (t : ℚ) (e : Bool)
    (cfg : AlertConfig) (hcfg : s.alerts k = some cfg)
    (hact : k ∉ s.active_alerts)
    (hrl : ∀ last, s.alert_last_displayed k = some last →
      ¬ (t - last < rateLimitOf s k)) :
    add s k t e = addApply s k t e := by
  unfold add
  rw [hcfg]
  simp only [if_neg hact]
  cases hld : s.alert_last_displayed k with
  | none => rfl
  | some last => exact if_neg (hrl last hld)

/-- C7: calling `add(key)` twice without an intervening `remove` is
absorbed by the already-active guard: the second call leaves the state
of the first call unchanged (so `started_at` keeps the first call's
stamp `t1`) and the active set holds exactly one entry for the key. -/
theorem add_twice_no_reset (s : AMState) (k : String) (t1 t2 : ℚ)
    (hcat : (s.alerts k).isSome) (hact : k ∉ s.active_alerts)
    (hrl : ∀ last, s.alert_last_displayed k = some last →
      ¬ (t1 - last < rateLimitOf s k)) :
    add (add s k t1 true) k t2 true = add s k t1 true ∧
    (add s k t1 true).alert_start_times k = some t1 ∧
    ((add s k t1 true).active_alerts).count k = 1 := by
  obtain ⟨cfg, hcfg⟩ := Option.isSome_iff_exists.mp hcat
  have h1 : add s k t1 true = addApply s k t1 true :=
    add_eq_addApply s k t1 true cfg hcfg hact hrl
  have happ : addApply s k t1 true =
      { s with
        active_alerts := k :: s.active_alerts
        alert_start_times := fun k' => if k' = k then some t1 else s.alert_start_times k'
        alert_last_displayed := fun k' => if k' = k then some t1 else s.alert_last_displayed k' } := by
    simp [addApply]
  refine ⟨?_, ?_, ?_⟩
  · rw [h1, happ]
    unfold add
    simp [hcfg, List.mem_cons]
  · rw [h1, happ]
    simp
  · rw [h1, happ]
    simp only [List.count_cons_self]
    rw [List.count_eq_zero.mpr hact]

/-- C7 at a concrete input: `wazePolice` added at times 1 and 2 on the
fresh registry. -/
theorem add_twice_no_reset_wit :
    add (add (initState cat0) "wazePolice" 1 true) "wazePolice" 2 true =
      add (initState cat0) "wazePolice" 1 true ∧
    (add (initState cat0) "wazePolice" 1 true).alert_start_times "wazePolice" = some 1 ∧
    ((add (initState cat0) "wazePolice" 1 true).active_alerts).count "wazePolice" = 1 :=
  add_twice_no_reset (initState cat0) "wazePolice" 1 2 (by decide)
    (by simp [initState]) (fun last h => by simp [initState] at h)

end AlertsMgr

namespace AlertsMgr

/-- `remove` on an active key, written out as a record update. -/
lemma remove_of_mem (s : AMState) (k : String) (h : k ∈ s.active_alerts) :
    remove s k =
      { s with
        active_alerts := s.active_alerts.erase k
        alert_start_times := fun k' => if k' = k then none else s.alert_start_times k' } := by
  unfold remove
  rw [if_pos h]

/-- C6: after `remove(key)` of an active key, `started_at` is cleared
while `last_displayed_at` keeps its value `L`, so the rate-limit guard
keeps applying: a re-`add` at time `now` is a no-op while
`now − L < rate_limit` and succeeds (key active again, fresh
`started_at = now`) once `rate_limit ≤ now − L`. -/
theorem add_after_remove_rate_limited (s : AMState) (k : String) (L now : ℚ)
    (hnd : s.active_alerts.Nodup) (hact : k ∈ s.active_alerts)
    (hcat : (s.alerts k).isSome)
    (hld : s.alert_last_displayed k = some L) :
    (remove s k).alert_start_times k = none ∧
    (remove s k).alert_last_displayed k = some L ∧
    (now - L < rateLimitOf s k → add (remove s k) k now true = remove s k) ∧
    (rateLimitOf s k ≤ now - L →
      k ∈ (add (remove s k) k now true).active_alerts ∧
      (add (remove s k) k now true).alert_start_times k = some now) := by
  obtain ⟨cfg, hcfg⟩ := Option.isSome_iff_exists.mp hcat
  have hrem := remove_of_mem s k hact
  have hout : k ∉ (remove s k).active_alerts := by
    rw [hrem]
    intro hmem
    exact ((hnd.mem_erase_iff).mp hmem).1 rfl
  have hcfg' : (remove s k).alerts k = some cfg := by rw [hrem]; exact hcfg
  have hld' : (remove s k).alert_last_displayed k = some L := by rw [hrem]; exact hld
  have hrate : rateLimitOf (remove s k) k = rateLimitOf s k := by
    rw [hrem]; rfl
  refine ⟨by rw [hrem]; simp, hld', ?_, ?_⟩
  · intro hlt
    unfold add
    rw [hcfg']
    simp only [if_neg hout]
    rw [hld']
    rw [hrate]
    exact if_pos hlt
  · intro hge
    have hstep : add (remove s k) k now true = addApply (remove s k) k now true := by
      unfold add
      rw [hcfg']
      simp only [if_neg hout]
      rw [hld', hrate]
      exact if_neg (not_lt.mpr hge)
    rw [hstep]
    constructor
    · simp [addApply]
    · simp [addApply]

/-- C6 at a concrete input: `wazeHazard` removed from `sBoth` (last
displayed at 0, default rate limit 5): re-adding at time 3 is a
no-op, re-adding at time 7 re-activates with `started_at = 7`. -/
theorem add_after_remove_rate_limited_wit :
    ((remove sBoth "wazeHazard").alert_start_times "wazeHazard" = none ∧
      (remove sBoth "wazeHazard").alert_last_displayed "wazeHazard" = some 0 ∧
      ((3 : ℚ) - 0 < rateLimitOf sBoth "wazeHazard" →
        add (remove sBoth "wazeHazard") "wazeHazard" 3 true = remove sBoth "wazeHazard") ∧
      (rateLimitOf sBoth "wazeHazard" ≤ (3 : ℚ) - 0 →
        "wazeHazard" ∈ (add (remove sBoth "wazeHazard") "wazeHazard" 3 true).active_alerts ∧
        (add (remove sBoth "wazeHazard") "wazeHazard" 3 true).alert_start_times "wazeHazard" = some 3)) ∧
    ((7 : ℚ) - 0 < rateLimitOf sBoth "wazeHazard" →
        add (remove sBoth "wazeHazard") "wazeHazard" 7 true = remove sBoth "wazeHazard") ∧
    (rateLimitOf sBoth "wazeHazard" ≤ (7 : ℚ) - 0 →
        "wazeHazard" ∈ (add (remove sBoth "wazeHazard") "wazeHazard" 7 true).active_alerts ∧
        (add (remove sBoth "wazeHazard") "wazeHazard" 7 true).alert_start_times "wazeHazard" = some 7) :=
  ⟨add_after_remove_rate_limited sBoth "wazeHazard" 0 3 (by decide) (by decide)
      (by decide) (by simp [sBoth]),
    (add_after_remove_rate_limited sBoth "wazeHazard" 0 7 (by decide) (by decide)
      (by decide) (by simp [sBoth])).2.2⟩

end AlertsMgr

namespace AlertsMgr

/-- `self.alerts[k].get("duration", float("inf"))`: the configured
duration, `none` meaning unbounded. -/
def durationOf (s : AMState) (k : String) : Option ℚ :=
  (s.alerts k).bind (fun c => c.duration)

/-- `self.alert_start_times.get(k, 0)`. -/
def startOf (s : AMState) (k : String) : ℚ :=
  (s.alert_start_times k).getD 0

/-- The expiry test of `process_alerts` as a Boolean (meaningful for
keys the catalog knows, where `alertExpired` does not raise). -/
def isExpired (s : AMState) (now : ℚ) (k : String) : Bool :=
  match durationOf s k with
  | none => false
  | some d => decide (now - startOf s k > d)

lemma alertExpired_ok (s : AMState) (now : ℚ) (k : String)
    (h : (s.alerts k).isSome) :
    alertExpired s now k = Except.ok (isExpired s now k) := by
  obtain ⟨cfg, hcfg⟩ := Option.isSome_iff_exists.mp h
  unfold alertExpired isExpired durationOf startOf
  rw [hcfg]
  cases hD : cfg.duration <;> simp [hD]

lemma collectExpired_ok (s : AMState) (now : ℚ) (l : List String)
    (h : ∀ k ∈ l, (s.alerts k).isSome) :
    collectExpired s now l = Except.ok (l.filter (fun k => isExpired s now k)) := by
  induction l with
  | nil => rfl
  | cons k ks ih =>
    have h1 := alertExpired_ok s now k (h k (List.mem_cons_self k ks))
    have h2 := ih (fun k' hk' => h k' (List.mem_cons_of_mem k hk'))
    simp only [collectExpired, h1, h2]
    cases hE : isExpired s now k <;> simp [hE, List.filter_cons]

lemma remove_active (s : AMState) (k : String) :
    (remove s k).active_alerts = s.active_alerts.erase k := by
  unfold remove
  split
  · rfl
  · next h => rw [List.erase_of_not_mem h]

lemma remove_alerts_same (s : AMState) (k : String) :
    (remove s k).alerts = s.alerts := by
  unfold remove
  split <;> rfl

lemma remove_start_ne (s : AMState) (b k : String) (h : k ≠ b) :
    (remove s b).alert_start_times k = s.alert_start_times k := by
  unfold remove
  split
  · simp [h]
  · rfl

lemma foldl_remove_active (l : List String) (s : AMState) :
    (l.foldl remove s).active_alerts = l.foldl List.erase s.active_alerts := by
  induction l generalizing s with
  | nil => rfl
  | cons b bs ih => rw [List.foldl_cons, List.foldl_cons, ih, remove_active]

lemma foldl_remove_start_ne (l : List String) (s : AMState) (k : String)
    (h : k ∉ l) :
    (l.foldl remove s).alert_start_times k = s.alert_start_times k := by
  induction l generalizing s with
  | nil => rfl
  | cons b bs ih =>
    rw [List.foldl_cons, ih _ (fun hk => h (List.mem_cons_of_mem b hk))]
    exact remove_start_ne s b k (fun he => h (he ▸ List.mem_cons_self b bs))

lemma mem_foldl_erase (l a : List String) (hnd : a.Nodup) (k : String) :
    k ∈ l.foldl List.erase a ↔ k ∈ a ∧ k ∉ l := by
  induction l generalizing a with
  | nil => simp
  | cons b bs ih =>
    rw [List.foldl_cons, ih (a.erase b) (List.Nodup.erase b hnd),
      hnd.mem_erase_iff]
    simp only [List.mem_cons]
    constructor
    · rintro ⟨⟨hne, hka⟩, hnbs⟩
      exact ⟨hka, fun h => h.elim hne hnbs⟩
    · rintro ⟨hka, hn⟩
      exact ⟨⟨fun he => hn (Or.inl he), hka⟩, fun h => hn (Or.inr h)⟩

lemma isExpired_iff (s : AMState) (now : ℚ) (k : String) :
    isExpired s now k = true ↔
      ∃ d, durationOf s k = some d ∧ now - startOf s k > d := by
  unfold isExpired
  cases h : durationOf s k <;> simp [h]

/-- C8: `process_alerts` (the reconcile step, `clear = False`) removes
an active key exactly when `now − started_at > duration[key]` (with
`duration` defaulting to unbounded, so keys with no configured
duration are never removed), and afterwards every remaining active
entry keeps its start time and satisfies
`now − started_at ≤ duration[key]` whenever a duration is set. -/
theorem process_alerts_expiry_exact (s : AMState) (now : ℚ)
    (hnd : s.active_alerts.Nodup)
    (hcat : ∀ k ∈ s.active_alerts, (s.alerts k).isSome) :
    ∃ s', process_alerts s now false = Except.ok s' ∧
      (∀ k ∈ s.active_alerts,
        (k ∉ s'.active_alerts ↔
          ∃ d, durationOf s k = some d ∧ now - startOf s k > d)) ∧
      (∀ k ∈ s'.active_alerts,
        s'.alert_start_times k = s.alert_start_times k ∧
        ∀ d, durationOf s k = some d → now - startOf s k ≤ d) := by
  have hcoll := collectExpired_ok s now s.active_alerts hcat
  refine ⟨(s.active_alerts.filter (fun k => isExpired s now k)).foldl remove s,
    ?_, ?_, ?_⟩
  · show (match collectExpired s now s.active_alerts with
      | .error e => .error e
      | .ok toR => .ok (toR.foldl remove s)) =
      Except.ok ((s.active_alerts.filter (fun k => isExpired s now k)).foldl remove s)
    rw [hcoll]
  · intro k hk
    rw [foldl_remove_active,
      mem_foldl_erase (s.active_alerts.filter (fun k => isExpired s now k))
        s.active_alerts hnd k, ← isExpired_iff]
    constructor
    · intro h
      by_contra hE
      exact h ⟨hk, fun hmem => hE (List.mem_filter.mp hmem).2⟩
    · intro hE hcontra
      exact hcontra.2 (List.mem_filter.mpr ⟨hk, hE⟩)
  · intro k hk
    rw [foldl_remove_active,
      mem_foldl_erase (s.active_alerts.filter (fun k => isExpired s now k))
        s.active_alerts hnd k] at hk
    refine ⟨foldl_remove_start_ne _ s k hk.2, ?_⟩
    intro d hd
    by_contra hgt
    push_neg at hgt
    exact hk.2 (List.mem_filter.mpr ⟨hk.1, (isExpired_iff s now k).mpr ⟨d, hd, hgt⟩⟩)

/-- C8 at a concrete input: both keys of `sBoth` (start times 0,
durations 10) reconciled at time 12. -/
theorem process_alerts_expiry_exact_wit :
    ∃ s', process_alerts sBoth 12 false = Except.ok s' ∧
      (∀ k ∈ sBoth.active_alerts,
        (k ∉ s'.active_alerts ↔
          ∃ d, durationOf sBoth k = some d ∧ 12 - startOf sBoth k > d)) ∧
      (∀ k ∈ s'.active_alerts,
        s'.alert_start_times k = sBoth.alert_start_times k ∧
        ∀ d, durationOf sBoth k = some d → 12 - startOf sBoth k ≤ d) :=
  process_alerts_expiry_exact sBoth 12 (by decide) (by decide)

end AlertsMgr

namespace AlertsMgr

/-- The registry invariant: every key in the active set is known to
the catalog and has a start-time entry.  `Nodup` encodes that
`self.active_alerts` is a Python set (no duplicate members), which the
list model needs to say explicitly. -/
def Inv (s : AMState) : Prop :=
  s.active_alerts.Nodup ∧
  ∀ k ∈ s.active_alerts, (s.alerts k).isSome ∧ (s.alert_start_times k).isSome

lemma inv_addApply (s : AMState) (k : String) (now : ℚ) (e : Bool)
    (h : Inv s) (hk : (s.alerts k).isSome) (hact : k ∉ s.active_alerts) :
    Inv (addApply s k now e) := by
  unfold addApply
  split
  · refine ⟨List.nodup_cons.mpr ⟨hact, h.1⟩, ?_⟩
    intro k' hk'
    rcases List.mem_cons.mp hk' with he | hm
    · subst he
      exact ⟨hk, by simp⟩
    · have hne : k' ≠ k := fun he' => hact (he' ▸ hm)
      refine ⟨(h.2 k' hm).1, ?_⟩
      simp only [if_neg hne]
      exact (h.2 k' hm).2
  · exact h

lemma inv_add (s : AMState) (k : String) (now : ℚ) (e : Bool)
    (h : Inv s) : Inv (add s k now e) := by
  unfold add
  cases hc : s.alerts k with
  | none => exact h
  | some cfg =>
    show Inv (if k ∈ s.active_alerts then s
      else match s.alert_last_displayed k with
        | some last => if now - last < rateLimitOf s k then s else addApply s k now e
        | none => addApply s k now e)
    have hks : (s.alerts k).isSome := by rw [hc]; rfl
    by_cases hact : k ∈ s.active_alerts
    · rw [if_pos hact]; exact h
    · rw [if_neg hact]
      cases hld : s.alert_last_displayed k with
      | none => exact inv_addApply s k now e h hks hact
      | some last =>
        show Inv (if now - last < rateLimitOf s k then s else addApply s k now e)
        by_cases hlt : now - last < rateLimitOf s k
        · rw [if_pos hlt]; exact h
        · rw [if_neg hlt]; exact inv_addApply s k now e h hks hact

lemma inv_remove (s : AMState) (k : String) (h : Inv s) : Inv (remove s k) := by
  unfold remove
  split
  · refine ⟨List.Nodup.erase k h.1, ?_⟩
    intro k' hk'
    have hm := (h.1.mem_erase_iff).mp hk'
    refine ⟨(h.2 k' hm.2).1, ?_⟩
    simp only [if_neg hm.1]
    exact (h.2 k' hm.2).2
  · exact h

lemma inv_clear (s : AMState) : Inv (clear_current_alert s) :=
  ⟨List.nodup_nil, fun _ hk => nomatch hk⟩

lemma inv_foldl_remove (l : List String) (s : AMState) (h : Inv s) :
    Inv (l.foldl remove s) := by
  induction l generalizing s with
  | nil => exact h
  | cons b bs ih => exact ih _ (inv_remove s b h)

lemma process_ok_of_inv (s : AMState) (now : ℚ) (c : Bool) (h : Inv s) :
    ∃ s', process_alerts s now c = Except.ok s' ∧ Inv s' := by
  have h1 : Inv (if c then clear_current_alert s else s) := by
    cases c
    · exact h
    · exact inv_clear s
  set s1 := if c then clear_current_alert s else s with hs1
  have hcoll := collectExpired_ok s1 now s1.active_alerts (fun k hk => (h1.2 k hk).1)
  refine ⟨(s1.active_alerts.filter (fun k => isExpired s1 now k)).foldl remove s1,
    ?_, inv_foldl_remove _ _ h1⟩
  show (match collectExpired s1 now s1.active_alerts with
    | .error e => .error e
    | .ok toR => .ok (toR.foldl remove s1)) =
    Except.ok ((s1.active_alerts.filter (fun k => isExpired s1 now k)).foldl remove s1)
  rw [hcoll]

lemma select_ok_of_inv (s : AMState) (h : Inv s) :
    ∃ r, selectAlert s = Except.ok r := by
  unfold selectAlert
  cases hA : s.active_alerts with
  | nil => exact ⟨none, rfl⟩
  | cons k ks =>
    have hk : (s.alerts k).isSome :=
      (h.2 k (by rw [hA]; exact List.mem_cons_self k ks)).1
    obtain ⟨cfg, hcfg⟩ := Option.isSome_iff_exists.mp hk
    show ∃ r, (match s.alerts k with
      | none => Except.error ()
      | some cfg => Except.ok (some (k, cfg))) = Except.ok r
    rw [hcfg]
    exact ⟨some (k, cfg), rfl⟩

/-- C10: the invariant `Inv` (active keys are catalog keys and have
start-time entries) holds in the initial state and is preserved by
`add`, `remove`, `clear_current_alert`, and `process_alerts`; under it
the unguarded `self.alerts[...]` lookups in expiry checking
(`process_alerts`) and display selection (`selectAlert`) never raise. -/
theorem registry_invariant_preserved (cat : String → Option AlertConfig)
    (s : AMState) (h : Inv s) (k : String) (now : ℚ) (e c : Bool) :
    Inv (initState cat) ∧
    Inv (add s k now e) ∧
    Inv (remove s k) ∧
    Inv (clear_current_alert s) ∧
    (∃ s', process_alerts s now c = Except.ok s' ∧ Inv s') ∧
    (∃ r, selectAlert s = Except.ok r) :=
  ⟨⟨List.nodup_nil, fun _ hk' => nomatch hk'⟩,
    inv_add s k now e h, inv_remove s k h, inv_clear s,
    process_ok_of_inv s now c h, select_ok_of_inv s h⟩

/-- C10 at a concrete input: the fresh registry over `cat0`. -/
theorem registry_invariant_preserved_wit :
    Inv (initState cat0) ∧
    Inv (add (initState cat0) "wazePolice" 3 true) ∧
    Inv (remove (initState cat0) "wazePolice") ∧
    Inv (clear_current_alert (initState cat0)) ∧
    (∃ s', process_alerts (initState cat0) 3 false = Except.ok s' ∧ Inv s') ∧
    (∃ r, selectAlert (initState cat0) = Except.ok r) :=
  registry_invariant_preserved cat0 (initState cat0)
    ⟨List.nodup_nil, fun _ hk => nomatch hk⟩ "wazePolice" 3 true false

end AlertsMgr
